import Mathlib

/-!
Shallow embedding of the GalactiMecha simulation core
(`ai/data/data_generator.py`, `ai/modules/slm_module.py`,
`ai/utils/drift.py`, `ai/scripts/simulation_functions.py`)
over exact rational arithmetic.

Modelling conventions, used uniformly below:
* Python floats are modelled as `ℚ`; the square-root of numpy
  (`np.linalg.norm`, `np.sqrt`) is irrational in general and is passed in
  as an explicit parameter `sqrtQ : ℚ → ℚ` (its only property ever needed
  is non-negativity, stated as a hypothesis where used).
* numpy's seeded pseudo-random stream is modelled by an abstract family
  `draws : ℕ → ℕ → ℚ` (seed → position → standard variate); a call to a
  distribution sampler consumes one abstract standard variate per value and
  applies the documented location/scale transformation.  The global
  `np.random` state is a `(seed, position)` pair; `np.random.seed 42`
  replaces it by `(42, 0)` discarding the previous state.
* `datetime.now()` is modelled by an explicit clock parameter.
* One claim (`calculate_time_to_destination` and NaN) is about IEEE-754
  special values; for it only, a small float domain `F` with IEEE
  NaN/infinity propagation rules is used.
-/

namespace GalactiMecha

/-- 3-vector of rationals (positions, velocities, guidance vectors). -/
structure Vec3 where
  x : ℚ
  y : ℚ
  z : ℚ
deriving DecidableEq, Repr, Inhabited

/-- 6-component maneuver vector: thrust x,y,z then orientation x,y,z. -/
structure Move6 where
  tx : ℚ
  ty : ℚ
  tz : ℚ
  ox : ℚ
  oy : ℚ
  oz : ℚ
deriving DecidableEq, Repr, Inhabited

/-- The 10 numeric telemetry features, in DataFrame column order after
dropping `timestamp`, `landing_zone_lat`, `landing_zone_lon`. -/
structure Features where
  px : ℚ
  py : ℚ
  pz : ℚ
  vx : ℚ
  vy : ℚ
  vz : ℚ
  acc : ℚ
  fuel : ℚ
  astDist : ℚ
  hazard : ℚ
deriving DecidableEq, Repr, Inhabited

/-- One telemetry row of `generate_correct_data`: timestamp, the ten numeric
features, landing-zone latitude and longitude (13 columns). -/
structure Sample where
  ts : ℚ
  feat : Features
  lat : ℚ
  lon : ℚ
deriving DecidableEq, Repr, Inhabited

/-- Numeric (non-wall-clock) part of a sample: everything except the
`timestamp` column. -/
def Sample.numeric (s : Sample) : Features × ℚ × ℚ := (s.feat, s.lat, s.lon)

/-- Global `np.random` state: which seed the stream was seeded with and how
many standard variates have been consumed since. -/
structure RNGState where
  seed : ℕ
  pos : ℕ
deriving DecidableEq, Repr, Inhabited

/-- `np.linspace start stop n` at index `i` (the code only ever indexes
within range; `n = 1` gives `start`, matching numpy). -/
def linspace (start stop : ℚ) (n : ℕ) (i : ℕ) : ℚ :=
  if n ≤ 1 then start else start + i * (stop - start) / (n - 1 : ℕ)

/-- Embedding of `generate_correct_data` (`ai/data/data_generator.py`,
lines 7-67).  `draws` is the abstract seeded stream, `start` the value of
`datetime.now()` at call time, `r` the incoming global RNG state.  The
function begins with `np.random.seed(42)`, so `r` is discarded and every
variate comes from the seed-42 stream; one variate is consumed per produced
value, in the source's field order (position_x jitter, position_y,
position_z, velocity_x, velocity_y, velocity_z, acceleration, fuel jitter,
asteroid_distance, hazard_score, landing_zone_lat, landing_zone_lon).
Returns the rows and the outgoing global RNG state. -/
def generate_correct_data (draws : ℕ → ℕ → ℚ) (start : ℚ) (_r : RNGState)
    (n : ℕ) : List Sample × RNGState :=
  (((List.range n).map fun (i : ℕ) =>
    { ts := start + (i : ℚ)
      feat :=
        { px := linspace 100000 1000 n i + 100 * draws 42 i
          py := 500 * draws 42 (n + i)
          pz := 500 * draws 42 (2 * n + i)
          vx := -(1 + 4 * draws 42 (3 * n + i))
          vy := (1/2) * draws 42 (4 * n + i)
          vz := (1/2) * draws 42 (5 * n + i)
          acc := (1/10) * draws 42 (6 * n + i)
          fuel := max 0 (100 - linspace 0 50 n i + 5 * draws 42 (7 * n + i))
          astDist := 1000 * draws 42 (8 * n + i)
          hazard := 10 * draws 42 (9 * n + i) }
      lat := -90 + 180 * draws 42 (10 * n + i)
      lon := -180 + 360 * draws 42 (11 * n + i) }),
   { seed := 42, pos := 12 * n })

/-- The single row of `generate_correct_data(1)`, as used by the simulation
loops (one fresh sample per step). -/
def genOne (draws : ℕ → ℕ → ℚ) (start : ℚ) : Sample :=
  ((generate_correct_data draws start ⟨42, 0⟩ 1).1).headI

/-- Corruption of one selected row by `inject_fake_data`: `position_x` is
multiplied by a draw from `{-10, 10}`, `velocity_x` by a draw from
`uniform(5, 20)`, `fuel_level` is replaced by a draw from `uniform(0, 200)`
and `hazard_score` by a draw from `uniform(8, 15)`; `j` is the row's
position in the chosen index vector. -/
def corruptRow (sgn velm fu hz : ℕ → ℚ) (j : ℕ) (s : Sample) : Sample :=
  { s with feat :=
    { s.feat with
      px := s.feat.px * sgn j
      vx := s.feat.vx * velm j
      fuel := fu j
      hazard := hz j } }

/-- Number of corrupted rows requested by `inject_fake_data`:
`num_corrupt = int(len(df) * corruption_rate)` (truncation = floor for the
non-negative rates in `[0, 1]`). -/
def numCorrupt (n : ℕ) (rate : ℚ) : ℕ := (⌊(n : ℚ) * rate⌋).toNat

/-- Embedding of `inject_fake_data` (`ai/data/data_generator.py`, lines
69-93).  `choice n k` models `np.random.choice(n, k, replace=False)`
(abstract, constrained by hypotheses where needed); `sgn`, `velm`, `fu`,
`hz` model the four corruption draw vectors.  The input list is returned
unchanged apart from the selected positions (the source operates on
`df.copy()`). -/
def inject_fake_data (choice : ℕ → ℕ → List ℕ) (sgn velm fu hz : ℕ → ℚ)
    (df : List Sample) (rate : ℚ) : List Sample :=
  let n := df.length
  let k := numCorrupt n rate
  let chosen := choice n k
  df.mapIdx fun i s =>
    if i ∈ chosen then corruptRow sgn velm fu hz (chosen.indexOf i) s else s

/-- Number of positions at which two equal-length row lists differ. -/
def modifiedCount (a b : List Sample) : ℕ :=
  (a.zip b).countP fun p => decide (p.1 ≠ p.2)

/-! ### Instruction interpreter (`ai/modules/slm_module.py`) -/

/-- ASCII lower-casing of one character, as `str.lower` acts on the ASCII
instructions used here. -/
def lowChar (c : Char) : Char :=
  if 65 ≤ c.toNat ∧ c.toNat ≤ 90 then Char.ofNat (c.toNat + 32) else c

/-- `instruction.lower()` as a character list. -/
def lowerChars (s : String) : List Char := s.data.map lowChar

/-- Does `hay` start with `pat`? (helper for substring containment). -/
def startsWith : List Char → List Char → Bool
  | _, [] => true
  | [], _ :: _ => false
  | a :: as, b :: bs => a = b && startsWith as bs

/-- Python's `pat in hay` substring test on character lists. -/
def hasSub (pat : List Char) : List Char → Bool
  | [] => pat.isEmpty
  | c :: cs => startsWith (c :: cs) pat || hasSub pat cs

/-- The state of `SLMInterpreter`: whether the transformers pipeline loaded,
and (abstractly) the sentiment model `instruction ↦ (label == POSITIVE,
score)` used when it did. -/
structure SLMInterpreter where
  useTransformers : Bool
  tmodel : String → Bool × ℚ

/-- Embedding of `SLMInterpreter.interpret_instruction`
(`ai/modules/slm_module.py`, lines 21-63).  Guidance vector is
`(direction, 0, fuel_priority)`. -/
def interpret_instruction (slm : SLMInterpreter) (instruction : String) : Vec3 :=
  if slm.useTransformers then
    let r := slm.tmodel instruction
    if r.1 then ⟨1, 0, r.2⟩ else ⟨-1, 0, r.2⟩
  else
    let lo := lowerChars instruction
    let direction : ℚ :=
      if hasSub (lowerChars "north") lo then 1
      else if hasSub (lowerChars "south") lo then -1
      else 0
    let fuelPriority : ℚ :=
      if hasSub (lowerChars "minimal") lo || hasSub (lowerChars "conserv") lo
          || hasSub (lowerChars "save") lo then 8/10
      else if hasSub (lowerChars "aggressive") lo || hasSub (lowerChars "fast") lo
          || hasSub (lowerChars "quick") lo then 2/10
      else 5/10
    ⟨direction, 0, fuelPriority⟩

/-! ### Time-to-destination estimator, rational version
(`ai/scripts/simulation_functions.py`, lines 8-64), as invoked from the
simulation loops on the rational state. -/

/-- Return domain of `calculate_time_to_destination`: a finite number of
hours, the `float('inf')` sentinel, or `None` (the `except` branch). -/
inductive TimeEst where
  | hours (q : ℚ)
  | infinite
  | unknown
deriving DecidableEq, Repr, Inhabited

/-- Squared euclidean norm of a 3-vector. -/
def Vec3.normSq (v : Vec3) : ℚ := v.x * v.x + v.y * v.y + v.z * v.z

/-- Dot product of 3-vectors. -/
def Vec3.dot (a b : Vec3) : ℚ := a.x * b.x + a.y * b.y + a.z * b.z

/-- Componentwise sum. -/
def Vec3.add (a b : Vec3) : Vec3 := ⟨a.x + b.x, a.y + b.y, a.z + b.z⟩

/-- Scalar multiple. -/
def Vec3.smul (c : ℚ) (a : Vec3) : Vec3 := ⟨c * a.x, c * a.y, c * a.z⟩

/-- Embedding of `calculate_time_to_destination` on the rational state, with
the square root passed in as `sqrtQ`.  On these inputs no exception can be
raised, so the `except`-branch value `None` (`TimeEst.unknown`) does not
occur; `float('inf')` arises when `max_thrust = 0` (both summands infinite)
and from the `> 1000` hours sanity check. -/
def calculate_time_to_destination (sqrtQ : ℚ → ℚ) (pos vel : Vec3)
    (fuelLevel : ℚ) (thrustLimit : ℚ) : TimeEst :=
  let distance := sqrtQ pos.normSq
  if distance < 1000 then .hours (1/2)
  else
    let velocityTowardsMars := -(vel.dot pos) / distance
    let maxThrust := thrustLimit * (fuelLevel / 100)
    let total : Option ℚ :=
      if velocityTowardsMars ≤ 0 then
        if maxThrust > 0 then
          some (|velocityTowardsMars| / maxThrust + sqrtQ (2 * distance / maxThrust))
        else none
      else
        some (distance / min velocityTowardsMars 5)
    match total with
    | none => .infinite
    | some t =>
      let timeHours := t * (1/10) / 3600
      if timeHours < 1/100 then .hours (1/100)
      else if timeHours > 1000 then .infinite
      else .hours timeHours

/-! ### Simulation loops (`ai/scripts/simulation_functions.py`) -/

/-- The abstract random/clock environment threaded through a simulation run:
`draws` is the seeded stream used by `generate_correct_data`; `clock i` the
wall time at the step-`i` generator call; `urand i` the step-`i`
`np.random.random()` coin of the baseline loop; `choiceAt i`, `csgn i`,
`cvel i`, `cfuel i`, `chaz i` the `inject_fake_data` draws at step `i`;
`sqrtQ` embeds `np.linalg.norm`/`np.sqrt` (see module header). -/
structure Env where
  draws : ℕ → ℕ → ℚ
  clock : ℕ → ℚ
  urand : ℕ → ℚ
  choiceAt : ℕ → ℕ → ℕ → List ℕ
  csgn : ℕ → ℕ → ℚ
  cvel : ℕ → ℕ → ℚ
  cfuel : ℕ → ℕ → ℚ
  chaz : ℕ → ℕ → ℚ
  sqrtQ : ℚ → ℚ

/-- One step record of `run_multi_step_simulation`: the per-step entries of
its `results` dict (`steps`, `anomalies`, `predictions`, `sensor_data`,
`fuel_levels`, `distances`, `positions`, `time_estimates`). -/
structure BaseRecord where
  step : ℕ
  isAnomaly : Bool
  move : Move6
  state : Features
  fuelAfter : ℚ
  distance : ℚ
  position : Vec3
  timeEst : TimeEst
deriving DecidableEq, Repr, Inhabited

/-- One step record of `run_multi_step_simulation_attack`: as `BaseRecord`
plus the `attack_active` flag. -/
structure AttackRecord where
  step : ℕ
  isAnomaly : Bool
  move : Move6
  state : Features
  fuelAfter : ℚ
  distance : ℚ
  position : Vec3
  attackActive : Bool
  timeEst : TimeEst
deriving DecidableEq, Repr, Inhabited

/-- One iteration of the baseline loop body (`run_multi_step_simulation`,
lines 121-167): generate a sample, corrupt it with probability
`anomalyRate`, score it, predict the move, update fuel and position, record
the step. -/
def baseStep (E : Env) (detector : Features → ℚ)
    (predict : Features → Vec3 → Move6) (guidance : Vec3)
    (anomalyRate anomalySensitivity : ℚ) (step : ℕ) (fuel : ℚ) (pos : Vec3) :
    BaseRecord × ℚ × Vec3 :=
  let data := [genOne E.draws (E.clock step)]
  let data :=
    if E.urand step < anomalyRate then
      inject_fake_data (E.choiceAt step) (E.csgn step) (E.cvel step)
        (E.cfuel step) (E.chaz step) data 1
    else data
  let state := data.headI.feat
  let anomalyScore := detector state
  let isAnomaly := decide (anomalyScore < -anomalySensitivity)
  let move := predict state guidance
  let thrustMagnitude := E.sqrtQ (move.tx * move.tx + move.ty * move.ty + move.tz * move.tz)
  let fuel := max 0 (fuel - thrustMagnitude * (1/10))
  let velocity : Vec3 := ⟨state.vx, state.vy, state.vz⟩
  let pos := (pos.add (Vec3.smul (1/10) velocity)).add
    (Vec3.smul (1/100) ⟨move.tx, move.ty, move.tz⟩)
  let distanceToMars := E.sqrtQ pos.normSq
  let timeEstimate := calculate_time_to_destination E.sqrtQ pos velocity fuel 2
  (⟨step, isAnomaly, move, state, fuel, distanceToMars, pos, timeEstimate⟩, fuel, pos)

/-- The baseline loop from step `i` with `k` steps remaining. -/
def runBaseFrom (E : Env) (detector : Features → ℚ)
    (predict : Features → Vec3 → Move6) (guidance : Vec3)
    (anomalyRate anomalySensitivity : ℚ) :
    ℕ → ℕ → ℚ → Vec3 → List BaseRecord
  | 0, _, _, _ => []
  | k + 1, i, fuel, pos =>
    let st := baseStep E detector predict guidance anomalyRate anomalySensitivity i fuel pos
    st.1 :: runBaseFrom E detector predict guidance anomalyRate anomalySensitivity
      k (i + 1) st.2.1 st.2.2

/-- Embedding of `run_multi_step_simulation`
(`ai/scripts/simulation_functions.py`, lines 66-169) in the case where the
`slm`/`detector`/`predict_next_move` collaborators are supplied (the claims'
sources all point at this path; the dummy-data branch for missing
dependencies is not modelled).  Fuel starts at `100.0`, the position at
`(50000, 0, 0)`; returns the step ledger and the guidance vector computed
once from the instruction. -/
def run_multi_step_simulation (slm : SLMInterpreter) (E : Env)
    (detector : Features → ℚ) (predict : Features → Vec3 → Move6)
    (instruction : String) (numSteps : ℕ)
    (anomalyRate anomalySensitivity : ℚ) : List BaseRecord × Vec3 :=
  let guidance := interpret_instruction slm instruction
  (runBaseFrom E detector predict guidance anomalyRate anomalySensitivity
    numSteps 0 100 ⟨50000, 0, 0⟩, guidance)

/-- `np.clip x lo hi` componentwise bound. -/
def clipQ (lo hi x : ℚ) : ℚ := min hi (max lo x)

/-- `np.clip(move, -2.0, 2.0)` on all six maneuver components. -/
def Move6.clip (lo hi : ℚ) (m : Move6) : Move6 :=
  ⟨clipQ lo hi m.tx, clipQ lo hi m.ty, clipQ lo hi m.tz,
   clipQ lo hi m.ox, clipQ lo hi m.oy, clipQ lo hi m.oz⟩

/-- The attacked loop's sole mitigation (lines 452-455): when the step is
attack-active and the sample was flagged anomalous, clip every maneuver
component to `[-2, 2]`; otherwise pass the move through. -/
def safetyClamp (attackActive isAnomaly : Bool) (m : Move6) : Move6 :=
  if attackActive && isAnomaly then m.clip (-2) 2 else m

/-- All six components lie in `[lo, hi]`. -/
def Move6.allIn (lo hi : ℚ) (m : Move6) : Prop :=
  (lo ≤ m.tx ∧ m.tx ≤ hi) ∧ (lo ≤ m.ty ∧ m.ty ≤ hi) ∧ (lo ≤ m.tz ∧ m.tz ≤ hi) ∧
  (lo ≤ m.ox ∧ m.ox ≤ hi) ∧ (lo ≤ m.oy ∧ m.oy ≤ hi) ∧ (lo ≤ m.oz ∧ m.oz ≤ hi)

instance (lo hi : ℚ) (m : Move6) : Decidable (m.allIn lo hi) := by
  unfold Move6.allIn; infer_instance

/-- One iteration of the attacked loop body
(`run_multi_step_simulation_attack`, lines 422-474): corruption is applied
deterministically inside `[attackStart, attackEnd)`; the detector and
predictor are optional (`if detector:` / `if predict_next_move:`, with
`is_anomaly = attack_active` and a random move as the fallbacks); when the
step is attack-active and flagged anomalous the move is clipped to
`[-2, 2]` before the state update. -/
def attackStep (E : Env) (detector : Option (Features → ℚ))
    (predict : Option (Features → Vec3 → Move6)) (randMove : ℕ → Move6)
    (guidance : Vec3) (attackStart attackEnd : ℕ) (step : ℕ) (fuel : ℚ)
    (pos : Vec3) : AttackRecord × ℚ × Vec3 :=
  let data := [genOne E.draws (E.clock step)]
  let attackActive := decide (attackStart ≤ step ∧ step < attackEnd)
  let data :=
    if attackActive then
      inject_fake_data (E.choiceAt step) (E.csgn step) (E.cvel step)
        (E.cfuel step) (E.chaz step) data 1
    else data
  let state := data.headI.feat
  let isAnomaly :=
    match detector with
    | some d => decide (d state < -(1/2))
    | none => attackActive
  let move :=
    match predict with
    | some p => p state guidance
    | none => randMove step
  let move := safetyClamp attackActive isAnomaly move
  let thrustMagnitude := E.sqrtQ (move.tx * move.tx + move.ty * move.ty + move.tz * move.tz)
  let fuel := max 0 (fuel - thrustMagnitude * (1/10))
  let velocity : Vec3 := ⟨state.vx, state.vy, state.vz⟩
  let pos := (pos.add (Vec3.smul (1/10) velocity)).add
    (Vec3.smul (1/100) ⟨move.tx, move.ty, move.tz⟩)
  let distanceToMars := E.sqrtQ pos.normSq
  let timeEstimate := calculate_time_to_destination E.sqrtQ pos velocity fuel 2
  (⟨step, isAnomaly, move, state, fuel, distanceToMars, pos, attackActive, timeEstimate⟩,
   fuel, pos)

/-- The attacked loop from step `i` with `k` steps remaining. -/
def runAttackFrom (E : Env) (detector : Option (Features → ℚ))
    (predict : Option (Features → Vec3 → Move6)) (randMove : ℕ → Move6)
    (guidance : Vec3) (attackStart attackEnd : ℕ) :
    ℕ → ℕ → ℚ → Vec3 → List AttackRecord
  | 0, _, _, _ => []
  | k + 1, i, fuel, pos =>
    let st := attackStep E detector predict randMove guidance attackStart attackEnd i fuel pos
    st.1 :: runAttackFrom E detector predict randMove guidance attackStart attackEnd
      k (i + 1) st.2.1 st.2.2

/-- Embedding of `run_multi_step_simulation_attack`
(`ai/scripts/simulation_functions.py`, lines 412-476).  The `instruction`
parameter is accepted and unused, as in the source; the guidance vector is
passed in from the caller and echoed back. -/
def run_multi_step_simulation_attack (E : Env)
    (detector : Option (Features → ℚ))
    (predict : Option (Features → Vec3 → Move6)) (randMove : ℕ → Move6)
    (_instruction : String) (numSteps attackStart attackEnd : ℕ)
    (guidance : Vec3) : List AttackRecord × Vec3 :=
  (runAttackFrom E detector predict randMove guidance attackStart attackEnd
    numSteps 0 100 ⟨50000, 0, 0⟩, guidance)

/-! ### Attack summary and scenario (`ai/scripts/simulation_functions.py`,
lines 351-410 and 599-676) -/

/-- The numeric content of the attack-scenario summary markdown (string
formatting such as `format_time` is presentation and not modelled; the
security labels are kept as the words of the source's emoji labels). -/
structure AttackSummary where
  attackSteps : ℤ
  totalAnomalies : ℕ
  attackAnomalies : ℕ
  baselineFinalFuel : ℚ
  attackedFinalFuel : ℚ
  baselineFinalDist : ℚ
  attackedFinalDist : ℚ
  baselineFinalTime : TimeEst
  attackedFinalTime : TimeEst
  timeDelay : TimeEst
  maxDeviation : ℚ
  avgDeviation : ℚ
  detectionRatePct : ℚ
  attackSuccess : String
  aiResilience : String
  overallSecurity : String
deriving DecidableEq, Repr

/-- Python `list[-1]`: last element, or an `IndexError` on an empty list. -/
def lastE {α : Type} (l : List α) : Except String α :=
  match l.getLast? with
  | some a => .ok a
  | none => .error "IndexError: list index out of range"

/-- `xs[-1] if xs and xs[-1] is not None else float('inf')` on a list of
time estimates. -/
def finalTimeOf (l : List TimeEst) : TimeEst :=
  match l.getLast? with
  | none => .infinite
  | some .unknown => .infinite
  | some t => t

/-- `attacked - baseline if both != inf else inf` on final times. -/
def timeDelayOf (a b : TimeEst) : TimeEst :=
  match a, b with
  | .hours x, .hours y => .hours (x - y)
  | _, _ => .infinite

/-- `np.max` over a nonempty rational list (callers guard emptiness). -/
def listMax : List ℚ → ℚ
  | [] => 0
  | h :: t => t.foldl max h

/-- Embedding of `generate_attack_summary`
(`ai/scripts/simulation_functions.py`, lines 599-676).  The result is
`Except`: Python exceptions raised while computing the summary — in
particular the `ZeroDivisionError` from the detection-rate replacement
field `{attack_anomalies/attack_steps*100:.1f}`, whose guarding ternary
stands textually outside the f-string braces — are modelled as
`Except.error`.  Bindings appear in the source's evaluation order, with the
f-string replacement fields evaluated after all preceding statements. -/
def generate_attack_summary (sqrtQ : ℚ → ℚ) (baseline : List BaseRecord)
    (attacked : List AttackRecord) (attackStart attackEnd : ℕ)
    (_guidance : Vec3) (_totalSteps : ℕ) (_attackInstruction : String) :
    Except String AttackSummary := do
  let attackSteps : ℤ := (attackEnd : ℤ) - (attackStart : ℤ)
  let anomalies := attacked.map (·.isAnomaly)
  let totalAnomalies := anomalies.countP id
  let attackAnomalies :=
    if attackStart < anomalies.length ∧ attackEnd ≤ anomalies.length then
      (((anomalies.drop attackStart).take (attackEnd - attackStart)).countP id)
    else 0
  let baselineFinalFuel ← lastE (baseline.map (·.fuelAfter))
  let attackedFinalFuel ← lastE (attacked.map (·.fuelAfter))
  let baselineFinalDist ← lastE (baseline.map (·.distance))
  let attackedFinalDist ← lastE (attacked.map (·.distance))
  let baselineFinalTime := finalTimeOf (baseline.map (·.timeEst))
  let attackedFinalTime := finalTimeOf (attacked.map (·.timeEst))
  let timeDelay := timeDelayOf attackedFinalTime baselineFinalTime
  let attackedPos := attacked.map (·.position)
  let baselinePos := baseline.map (·.position)
  let devs :=
    if attackStart < attackedPos.length ∧ attackEnd ≤ attackedPos.length then
      (((attackedPos.drop attackStart).take (attackEnd - attackStart)).zip
        ((baselinePos.drop attackStart).take (attackEnd - attackStart))).map
        fun p => sqrtQ (Vec3.normSq ⟨p.1.x - p.2.x, p.1.y - p.2.y, p.1.z - p.2.z⟩)
    else []
  let maxDeviation := if devs.length > 0 then listMax devs else 0
  let avgDeviation := if devs.length > 0 then devs.sum / devs.length else 0
  let detectionRatePct : ℚ ←
    if attackSteps = 0 then .error "ZeroDivisionError: division by zero"
    else .ok ((attackAnomalies : ℚ) / (attackSteps : ℚ) * 100)
  let attackSuccess := if attackAnomalies > 0 then "BLOCKED" else "POTENTIAL BREACH"
  let aiResilience := if maxDeviation < 1000 then "ROBUST" else "COMPROMISED"
  let overallSecurity :=
    if attackSteps > 0 ∧ (attackAnomalies : ℚ) / (attackSteps : ℚ) > 7/10 then "SECURE"
    else if attackSteps > 0 then "VULNERABLE"
    else "NO ATTACK DATA"
  return { attackSteps, totalAnomalies, attackAnomalies, baselineFinalFuel,
           attackedFinalFuel, baselineFinalDist, attackedFinalDist,
           baselineFinalTime, attackedFinalTime, timeDelay, maxDeviation,
           avgDeviation, detectionRatePct, attackSuccess, aiResilience,
           overallSecurity }

/-- Embedding of `run_attack_scenario`
(`ai/scripts/simulation_functions.py`, lines 351-410), dependencies-present
path: a baseline run with `anomaly_rate = 0.0` and `anomaly_sensitivity =
0.5`, an attacked run over the same guidance, and the comparative summary
(the three matplotlib/plotly figures are presentation and not modelled).
Returns (summary, baseline ledger, attacked ledger, guidance). -/
def run_attack_scenario (slm : SLMInterpreter) (E Eatt : Env)
    (detector : Features → ℚ) (predict : Features → Vec3 → Move6)
    (randMove : ℕ → Move6) (instruction : String)
    (totalSteps attackStart attackEnd : ℕ) (attackInstruction : String) :
    Except String AttackSummary × List BaseRecord × List AttackRecord × Vec3 :=
  let br := run_multi_step_simulation slm E detector predict instruction totalSteps 0 (1/2)
  let ar := run_multi_step_simulation_attack Eatt (some detector) (some predict)
    randMove instruction totalSteps attackStart attackEnd br.2
  let summary := generate_attack_summary Eatt.sqrtQ br.1 ar.1 attackStart attackEnd
    br.2 totalSteps attackInstruction
  (summary, br.1, ar.1, br.2)

/-! ### Drift detection (`ai/utils/drift.py`) -/

/-- The dict returned by `detect_drift`; fields present only on some paths
are `Option`s. -/
structure DriftReport where
  driftDetected : Bool
  score : ℚ
  method : String
  threshold : Option ℚ
  currentSamples : Option ℕ
  refSamples : Option ℕ
  error : Option String
deriving DecidableEq, Repr

/-- The bin range `np.histogram` derives from the data: `(min, max)`,
widened to `(min - 0.5, max + 0.5)` when all values are equal, and `(0, 1)`
for empty data. -/
def histRange (data : List ℚ) : ℚ × ℚ :=
  match data with
  | [] => (0, 1)
  | h :: t =>
    let lo := t.foldl min h
    let hi := t.foldl max h
    if lo = hi then (lo - 1/2, hi + 1/2) else (lo, hi)

/-- `np.histogram` bin counts over `bins` equal-width bins on `[lo, hi]`:
half-open bins except the last, which is closed; values outside `[lo, hi]`
are not counted. -/
def histCounts (data : List ℚ) (lo hi : ℚ) (bins : ℕ) : List ℕ :=
  (List.range bins).map fun i =>
    let a := lo + i * (hi - lo) / bins
    let b := lo + (i + 1) * (hi - lo) / bins
    if i + 1 = bins then data.countP fun x => decide (a ≤ x ∧ x ≤ hi)
    else data.countP fun x => decide (a ≤ x ∧ x < b)

/-- `np.histogram(data, bins, density=True)` over the range `[lo, hi]`:
counts divided by `(total count) * (bin width)`.  (The `0/0` case of an
entirely out-of-range `data` — numpy would produce NaNs — is never reached
by the statements below; `ℚ` division by zero yields `0`.) -/
def npHistDensity (data : List ℚ) (lo hi : ℚ) (bins : ℕ) : List ℚ :=
  let counts := histCounts data lo hi bins
  let total := counts.sum
  counts.map fun (c : ℕ) => (c : ℚ) / ((total : ℚ) * ((hi - lo) / (bins : ℚ)))

/-- Embedding of `calculate_psi` (`ai/utils/drift.py`, lines 90-117) with
10 bins; `log` is the (transcendental) natural logarithm, passed in
abstractly.  Both histograms use the reference data's bin edges. -/
def calculate_psi (log : ℚ → ℚ) (currentData referenceData : List ℚ) : ℚ :=
  let r := histRange referenceData
  let refHist := (npHistDensity referenceData r.1 r.2 10).map (· + 1/1000000)
  let curHist := (npHistDensity currentData r.1 r.2 10).map (· + 1/1000000)
  ((curHist.zip refHist).map fun p => (p.1 - p.2) * log (p.1 / p.2)).sum

/-- Embedding of `calculate_js_divergence` (`ai/utils/drift.py`, lines
119-153): histograms on the reference edges, normalised to probabilities,
then the mean of the two smoothed KL divergences against the midpoint. -/
def calculate_js_divergence (log : ℚ → ℚ) (currentData referenceData : List ℚ) : ℚ :=
  let r := histRange referenceData
  let refHist0 := npHistDensity referenceData r.1 r.2 10
  let curHist0 := npHistDensity currentData r.1 r.2 10
  let refHist := refHist0.map (· / refHist0.sum)
  let curHist := curHist0.map (· / curHist0.sum)
  let midpoint := (refHist.zip curHist).map fun p => (p.1 + p.2) / 2
  let e : ℚ := 1 / 10000000000
  let klRef := ((refHist.zip midpoint).map fun p => p.1 * log ((p.1 + e) / (p.2 + e))).sum
  let klCur := ((curHist.zip midpoint).map fun p => p.1 * log ((p.1 + e) / (p.2 + e))).sum
  (klRef + klCur) / 2

/-- Empirical CDF value `#{y ∈ l | y ≤ x} / |l|`. -/
def ecdfLe (l : List ℚ) (x : ℚ) : ℚ := (l.countP fun y => decide (y ≤ x)) / l.length

/-- The two-sample Kolmogorov-Smirnov statistic
`sup |F_current - F_reference|` computed by `scipy.stats.ks_2samp`. -/
def ksStat (a b : List ℚ) : ℚ :=
  ((a ++ b).map fun x => |ecdfLe a x - ecdfLe b x|).foldr max 0

/-- Embedding of `detect_drift` (`ai/utils/drift.py`, lines 7-88).  The
inputs are the flattened 1-D arrays; over `ℚ` every value is finite, so the
`np.isfinite` filter is the identity and is omitted.  `ksPValue stat n m`
abstracts the p-value scipy computes from the KS statistic and the two
sample sizes (for identical samples the statistic is `0` and
`P(D ≥ 0) = 1`, stated as a hypothesis where used).  KS flags drift on
`p < 0.05` regardless of `threshold`. -/
def detect_drift (log : ℚ → ℚ) (ksPValue : ℚ → ℕ → ℕ → ℚ)
    (currentData referenceData : List ℚ) (method : String) (threshold : ℚ) :
    DriftReport :=
  if currentData.length = 0 ∨ referenceData.length = 0 then
    ⟨false, 0, method, none, none, none, some "Empty data arrays"⟩
  else if method = "psi" then
    let score := calculate_psi log currentData referenceData
    ⟨decide (score > threshold), score, method, some threshold,
     some currentData.length, some referenceData.length, none⟩
  else if method = "ks" then
    let score := ksStat currentData referenceData
    let p := ksPValue score currentData.length referenceData.length
    ⟨decide (p < 1/20), score, method, some threshold,
     some currentData.length, some referenceData.length, none⟩
  else if method = "js" then
    let score := calculate_js_divergence log currentData referenceData
    ⟨decide (score > threshold), score, method, some threshold,
     some currentData.length, some referenceData.length, none⟩
  else
    ⟨false, 0, method, none, none, none, some "Unknown method"⟩

/-! ### IEEE-754 special-value semantics for `calculate_time_to_destination`
(`ai/scripts/simulation_functions.py`, lines 8-64).  The claim about NaN
handling is about Python/numpy float behaviour: NaN does not raise, every
comparison against NaN is false, and NaN propagates through arithmetic.
`F` models a float as an exact rational, NaN, or a signed infinity. -/

inductive F where
  | num (q : ℚ)
  | nan
  | inf
  | ninf
deriving DecidableEq, Repr, Inhabited

namespace F

/-- IEEE addition. -/
def add : F → F → F
  | nan, _ => nan
  | _, nan => nan
  | inf, ninf => nan
  | ninf, inf => nan
  | inf, _ => inf
  | _, inf => inf
  | ninf, _ => ninf
  | _, ninf => ninf
  | num a, num b => num (a + b)

/-- IEEE multiplication (`±inf * 0 = nan`). -/
def mul : F → F → F
  | nan, _ => nan
  | _, nan => nan
  | inf, inf => inf
  | inf, ninf => ninf
  | ninf, inf => ninf
  | ninf, ninf => inf
  | inf, num b => if b = 0 then nan else if 0 < b then inf else ninf
  | num a, inf => if a = 0 then nan else if 0 < a then inf else ninf
  | ninf, num b => if b = 0 then nan else if 0 < b then ninf else inf
  | num a, ninf => if a = 0 then nan else if 0 < a then ninf else inf
  | num a, num b => num (a * b)

/-- IEEE negation. -/
def neg : F → F
  | nan => nan
  | inf => ninf
  | ninf => inf
  | num a => num (-a)

/-- IEEE division (numpy float semantics: `0/0 = nan`, `x/0 = ±inf`). -/
def div : F → F → F
  | nan, _ => nan
  | _, nan => nan
  | inf, inf => nan
  | inf, ninf => nan
  | ninf, inf => nan
  | ninf, ninf => nan
  | inf, num b => if 0 ≤ b then inf else ninf
  | ninf, num b => if 0 ≤ b then ninf else inf
  | num _, inf => num 0
  | num _, ninf => num 0
  | num a, num b =>
    if b = 0 then (if a = 0 then nan else if 0 < a then inf else ninf)
    else num (a / b)

/-- IEEE `<`: any comparison involving NaN is false. -/
def lt : F → F → Bool
  | nan, _ => false
  | _, nan => false
  | num a, num b => decide (a < b)
  | inf, _ => false
  | _, inf => true
  | _, ninf => false
  | ninf, _ => true

/-- IEEE `<=`: any comparison involving NaN is false. -/
def le : F → F → Bool
  | nan, _ => false
  | _, nan => false
  | num a, num b => decide (a ≤ b)
  | _, inf => true
  | inf, _ => false
  | ninf, _ => true
  | _, ninf => false

/-- `abs`. -/
def fabs : F → F
  | nan => nan
  | inf => inf
  | ninf => inf
  | num a => num |a|

/-- Python's binary `min`: keeps the first argument unless the second
compares strictly smaller, so `min(nan, x) = nan`. -/
def fmin (a b : F) : F := if lt b a then b else a

/-- `np.sqrt` on the float domain; `s` supplies the (irrational in general)
value on non-negative finite arguments. -/
def fsqrt (s : ℚ → ℚ) : F → F
  | nan => nan
  | inf => inf
  | ninf => nan
  | num a => if a < 0 then nan else num (s a)

end F

/-- Embedding of `calculate_time_to_destination` on IEEE float values
(`ai/scripts/simulation_functions.py`, lines 8-64).  Mirrors the source
line by line; no exception can occur on numeric inputs, so the function
returns the computed float directly (the `except`-branch `None` is
unreachable for such inputs). -/
def calcTimeF (s : ℚ → ℚ) (px py pz vx vy vz fuelLevel thrustLimit : F) : F :=
  let distance := F.fsqrt s (((px.mul px).add (py.mul py)).add (pz.mul pz))
  if F.lt distance (F.num 1000) then F.num (1/2)
  else
    let velocityTowardsMars :=
      (F.neg (((vx.mul px).add (vy.mul py)).add (vz.mul pz))).div distance
    let maxThrust := thrustLimit.mul (fuelLevel.div (F.num 100))
    let totalTime :=
      if F.le velocityTowardsMars (F.num 0) then
        let decelerationTime :=
          if F.lt (F.num 0) maxThrust then (F.fabs velocityTowardsMars).div maxThrust
          else F.inf
        let cruiseTime :=
          if F.lt (F.num 0) maxThrust then
            F.fsqrt s (((F.num 2).mul distance).div maxThrust)
          else F.inf
        decelerationTime.add cruiseTime
      else
        distance.div (F.fmin velocityTowardsMars (F.num 5))
    let timeHours := (totalTime.mul (F.num (1/10))).div (F.num 3600)
    if F.lt timeHours (F.num (1/100)) then F.num (1/100)
    else if F.lt (F.num 1000) timeHours then F.inf
    else timeHours

/-! ### Concrete instantiations used by witnesses -/

/-- An all-zero abstract environment (zero variates, zero clock, zero
square root, `np.random.choice n k = [0, …, k-1]`, corruption draws inside
their documented ranges). -/
def zeroEnv : Env where
  draws := fun _ _ => 0
  clock := fun _ => 0
  urand := fun _ => 0
  choiceAt := fun _ _ k => List.range k
  csgn := fun _ _ => 10
  cvel := fun _ _ => 5
  cfuel := fun _ _ => 0
  chaz := fun _ _ => 9
  sqrtQ := fun _ => 0

/-- The rule-based interpreter (transformers pipeline not loaded). -/
def slmRB : SLMInterpreter := ⟨false, fun _ => (true, 0)⟩

/-! ### Helper lemmas -/

theorem clipQ_bounds (lo hi x : ℚ) (h : lo ≤ hi) :
    lo ≤ clipQ lo hi x ∧ clipQ lo hi x ≤ hi := by
  unfold clipQ
  exact ⟨le_min h (le_max_left lo x), min_le_left _ _⟩

theorem Move6.clip_allIn (m : Move6) : (m.clip (-2) 2).allIn (-2) 2 := by
  have h : ∀ x : ℚ, -2 ≤ clipQ (-2) 2 x ∧ clipQ (-2) 2 x ≤ 2 := fun x =>
    clipQ_bounds _ _ x (by norm_num)
  exact ⟨h _, h _, h _, h _, h _, h _⟩

theorem safetyClamp_allIn (a n : Bool) (m : Move6) (ha : a = true)
    (hn : n = true) : (safetyClamp a n m).allIn (-2) 2 := by
  subst ha; subst hn
  simpa [safetyClamp] using m.clip_allIn

set_option maxHeartbeats 1000000 in
theorem attackStep_clamp (E : Env) (det : Option (Features → ℚ))
    (pred : Option (Features → Vec3 → Move6)) (rm : ℕ → Move6) (g : Vec3)
    (as ae i : ℕ) (f : ℚ) (p : Vec3)
    (hA : ((attackStep E det pred rm g as ae i f p).1).attackActive = true)
    (hN : ((attackStep E det pred rm g as ae i f p).1).isAnomaly = true) :
    ((attackStep E det pred rm g as ae i f p).1).move.allIn (-2) 2 :=
  safetyClamp_allIn ((attackStep E det pred rm g as ae i f p).1).attackActive
    ((attackStep E det pred rm g as ae i f p).1).isAnomaly _ hA hN

theorem runAttackFrom_clamp (E : Env) (det : Option (Features → ℚ))
    (pred : Option (Features → Vec3 → Move6)) (rm : ℕ → Move6) (g : Vec3)
    (as ae : ℕ) :
    ∀ (k i : ℕ) (f : ℚ) (p : Vec3),
      ∀ r ∈ runAttackFrom E det pred rm g as ae k i f p,
        r.attackActive = true → r.isAnomaly = true → r.move.allIn (-2) 2 := by
  intro k
  induction k with
  | zero => intro i f p r hr; simp [runAttackFrom] at hr
  | succ k ih =>
    intro i f p r hr
    rw [runAttackFrom] at hr
    rcases List.mem_cons.mp hr with h | h
    · subst h; exact attackStep_clamp E det pred rm g as ae i f p
    · exact ih _ _ _ r h

theorem runBaseFrom_length (E : Env) (det : Features → ℚ)
    (pred : Features → Vec3 → Move6) (g : Vec3) (rate sens : ℚ) :
    ∀ (k i : ℕ) (f : ℚ) (p : Vec3),
      (runBaseFrom E det pred g rate sens k i f p).length = k := by
  intro k
  induction k with
  | zero => intro i f p; rfl
  | succ k ih => intro i f p; rw [runBaseFrom]; simp [ih]

theorem runAttackFrom_length (E : Env) (det : Option (Features → ℚ))
    (pred : Option (Features → Vec3 → Move6)) (rm : ℕ → Move6) (g : Vec3)
    (as ae : ℕ) :
    ∀ (k i : ℕ) (f : ℚ) (p : Vec3),
      (runAttackFrom E det pred rm g as ae k i f p).length = k := by
  intro k
  induction k with
  | zero => intro i f p; rfl
  | succ k ih => intro i f p; rw [runAttackFrom]; simp [ih]

theorem baseStep_fuel (E : Env) (det : Features → ℚ)
    (pred : Features → Vec3 → Move6) (g : Vec3) (rate sens : ℚ) (i : ℕ)
    (fuel : ℚ) (pos : Vec3) (hs : ∀ q, 0 ≤ E.sqrtQ q) (h0 : 0 ≤ fuel) :
    0 ≤ (baseStep E det pred g rate sens i fuel pos).1.fuelAfter ∧
      (baseStep E det pred g rate sens i fuel pos).1.fuelAfter ≤ fuel ∧
      (baseStep E det pred g rate sens i fuel pos).2.1 =
        (baseStep E det pred g rate sens i fuel pos).1.fuelAfter := by
  unfold baseStep
  simp only
  refine ⟨le_max_left _ _, ?_, by trivial⟩
  apply max_le h0
  have h : ∀ t : ℚ, 0 ≤ t → fuel - t * (1/10) ≤ fuel := by
    intro t ht; linarith
  exact h _ (hs _)

theorem attackStep_fuel (E : Env) (det : Option (Features → ℚ))
    (pred : Option (Features → Vec3 → Move6)) (rm : ℕ → Move6) (g : Vec3)
    (as ae i : ℕ) (fuel : ℚ) (pos : Vec3) (hs : ∀ q, 0 ≤ E.sqrtQ q)
    (h0 : 0 ≤ fuel) :
    0 ≤ (attackStep E det pred rm g as ae i fuel pos).1.fuelAfter ∧
      (attackStep E det pred rm g as ae i fuel pos).1.fuelAfter ≤ fuel ∧
      (attackStep E det pred rm g as ae i fuel pos).2.1 =
        (attackStep E det pred rm g as ae i fuel pos).1.fuelAfter := by
  unfold attackStep
  simp only
  refine ⟨le_max_left _ _, ?_, by trivial⟩
  apply max_le h0
  have h : ∀ t : ℚ, 0 ≤ t → fuel - t * (1/10) ≤ fuel := by
    intro t ht; linarith
  exact h _ (hs _)

theorem runBaseFrom_fuel (E : Env) (det : Features → ℚ)
    (pred : Features → Vec3 → Move6) (g : Vec3) (rate sens : ℚ)
    (hs : ∀ q, 0 ≤ E.sqrtQ q) :
    ∀ (k i : ℕ) (fuel : ℚ) (pos : Vec3), 0 ≤ fuel →
      (∀ r ∈ runBaseFrom E det pred g rate sens k i fuel pos,
        0 ≤ r.fuelAfter ∧ r.fuelAfter ≤ fuel) ∧
      (runBaseFrom E det pred g rate sens k i fuel pos).Pairwise
        (fun a b => b.fuelAfter ≤ a.fuelAfter) := by
  intro k
  induction k with
  | zero => intro i fuel pos _; simp [runBaseFrom]
  | succ k ih =>
    intro i fuel pos h0
    obtain ⟨hnn, hle, heq⟩ := baseStep_fuel E det pred g rate sens i fuel pos hs h0
    rw [runBaseFrom]
    obtain ⟨ihmem, ihpw⟩ := ih (i + 1) (baseStep E det pred g rate sens i fuel pos).2.1
      (baseStep E det pred g rate sens i fuel pos).2.2 (heq ▸ hnn)
    constructor
    · intro r hr
      rcases List.mem_cons.mp hr with h | h
      · subst h; exact ⟨hnn, hle⟩
      · obtain ⟨h1, h2⟩ := ihmem r h
        exact ⟨h1, le_trans (le_trans h2 (le_of_eq heq)) hle⟩
    · refine List.pairwise_cons.mpr ⟨?_, ihpw⟩
      intro r hr
      exact le_trans (ihmem r hr).2 (le_of_eq heq)

theorem runAttackFrom_fuel (E : Env) (det : Option (Features → ℚ))
    (pred : Option (Features → Vec3 → Move6)) (rm : ℕ → Move6) (g : Vec3)
    (as ae : ℕ) (hs : ∀ q, 0 ≤ E.sqrtQ q) :
    ∀ (k i : ℕ) (fuel : ℚ) (pos : Vec3), 0 ≤ fuel →
      (∀ r ∈ runAttackFrom E det pred rm g as ae k i fuel pos,
        0 ≤ r.fuelAfter ∧ r.fuelAfter ≤ fuel) ∧
      (runAttackFrom E det pred rm g as ae k i fuel pos).Pairwise
        (fun a b => b.fuelAfter ≤ a.fuelAfter) := by
  intro k
  induction k with
  | zero => intro i fuel pos _; simp [runAttackFrom]
  | succ k ih =>
    intro i fuel pos h0
    obtain ⟨hnn, hle, heq⟩ := attackStep_fuel E det pred rm g as ae i fuel pos hs h0
    rw [runAttackFrom]
    obtain ⟨ihmem, ihpw⟩ := ih (i + 1) (attackStep E det pred rm g as ae i fuel pos).2.1
      (attackStep E det pred rm g as ae i fuel pos).2.2 (heq ▸ hnn)
    constructor
    · intro r hr
      rcases List.mem_cons.mp hr with h | h
      · subst h; exact ⟨hnn, hle⟩
      · obtain ⟨h1, h2⟩ := ihmem r h
        exact ⟨h1, le_trans (le_trans h2 (le_of_eq heq)) hle⟩
    · refine List.pairwise_cons.mpr ⟨?_, ihpw⟩
      intro r hr
      exact le_trans (ihmem r hr).2 (le_of_eq heq)

theorem runAttackFrom_get (E : Env) (det : Option (Features → ℚ))
    (pred : Option (Features → Vec3 → Move6)) (rm : ℕ → Move6) (g : Vec3)
    (as ae : ℕ) :
    ∀ (k i : ℕ) (f : ℚ) (p : Vec3) (j : ℕ)
      (hj : j < (runAttackFrom E det pred rm g as ae k i f p).length),
      ((runAttackFrom E det pred rm g as ae k i f p).get ⟨j, hj⟩).step = i + j ∧
      ((runAttackFrom E det pred rm g as ae k i f p).get ⟨j, hj⟩).attackActive =
        decide (as ≤ i + j ∧ i + j < ae) := by
  intro k
  induction k with
  | zero => intro i f p j hj; simp [runAttackFrom] at hj
  | succ k ih =>
    intro i f p j hj
    match j with
    | 0 => exact ⟨rfl, rfl⟩
    | j + 1 =>
      simp only [runAttackFrom] at hj ⊢
      have h := ih (i + 1) (attackStep E det pred rm g as ae i f p).2.1
        (attackStep E det pred rm g as ae i f p).2.2 j (by simpa using hj)
      have e : i + 1 + j = i + (j + 1) := by omega
      rw [e] at h
      rw [List.get_cons_succ]
      exact h

theorem runAttackFrom_anomaly (E : Env) (d : Features → ℚ)
    (pred : Option (Features → Vec3 → Move6)) (rm : ℕ → Move6) (g : Vec3)
    (as ae : ℕ) :
    ∀ (k i : ℕ) (f : ℚ) (p : Vec3),
      ∀ r ∈ runAttackFrom E (some d) pred rm g as ae k i f p,
        r.isAnomaly = decide (d r.state < -(1/2)) := by
  intro k
  induction k with
  | zero => intro i f p r hr; simp [runAttackFrom] at hr
  | succ k ih =>
    intro i f p r hr
    rw [runAttackFrom] at hr
    rcases List.mem_cons.mp hr with h | h
    · subst h; rfl
    · exact ih _ _ _ r h

theorem runBaseFrom_anomaly (E : Env) (det : Features → ℚ)
    (pred : Features → Vec3 → Move6) (g : Vec3) (rate sens : ℚ) :
    ∀ (k i : ℕ) (f : ℚ) (p : Vec3),
      ∀ r ∈ runBaseFrom E det pred g rate sens k i f p,
        r.isAnomaly = decide (det r.state < -sens) := by
  intro k
  induction k with
  | zero => intro i f p r hr; simp [runBaseFrom] at hr
  | succ k ih =>
    intro i f p r hr
    rw [runBaseFrom] at hr
    rcases List.mem_cons.mp hr with h | h
    · subst h; rfl
    · exact ih _ _ _ r h

theorem baseStep_state_rate_zero (E : Env) (det : Features → ℚ)
    (pred : Features → Vec3 → Move6) (g : Vec3) (sens : ℚ) (i : ℕ) (f : ℚ)
    (p : Vec3) (hu : 0 ≤ E.urand i) :
    ((baseStep E det pred g 0 sens i f p).1).state =
      (genOne E.draws (E.clock i)).feat := by
  unfold baseStep
  simp only
  rw [if_neg (not_lt.mpr hu)]
  rfl

theorem runBaseFrom_state_rate_zero (E : Env) (det : Features → ℚ)
    (pred : Features → Vec3 → Move6) (g : Vec3) (sens : ℚ)
    (hu : ∀ i, 0 ≤ E.urand i) :
    ∀ (k i : ℕ) (f : ℚ) (p : Vec3),
      ∀ r ∈ runBaseFrom E det pred g 0 sens k i f p,
        r.state = (genOne E.draws (E.clock r.step)).feat := by
  intro k
  induction k with
  | zero => intro i f p r hr; simp [runBaseFrom] at hr
  | succ k ih =>
    intro i f p r hr
    rw [runBaseFrom] at hr
    rcases List.mem_cons.mp hr with h | h
    · subst h
      have hstep : ((baseStep E det pred g 0 sens i f p).1).step = i := rfl
      rw [hstep]
      exact baseStep_state_rate_zero E det pred g sens i f p (hu i)
    · exact ih _ _ _ r h

theorem headI_mem {α : Type} [Inhabited α] {l : List α} (h : l ≠ []) :
    l.headI ∈ l := by
  cases l with
  | nil => exact absurd rfl h
  | cons a t => exact List.mem_cons_self a t

theorem run_base_length (slm : SLMInterpreter) (E : Env)
    (det : Features → ℚ) (pred : Features → Vec3 → Move6) (instr : String)
    (n : ℕ) (rate sens : ℚ) :
    (run_multi_step_simulation slm E det pred instr n rate sens).1.length = n :=
  runBaseFrom_length E det pred (interpret_instruction slm instr) rate sens
    n 0 100 ⟨50000, 0, 0⟩

theorem run_attack_length (E : Env) (det : Option (Features → ℚ))
    (pred : Option (Features → Vec3 → Move6)) (rm : ℕ → Move6)
    (instr : String) (n as ae : ℕ) (g : Vec3) :
    (run_multi_step_simulation_attack E det pred rm instr n as ae g).1.length
      = n :=
  runAttackFrom_length E det pred rm g as ae n 0 100 ⟨50000, 0, 0⟩

/-! ### Claim theorems -/

/-- C1: in the attacked simulation run, every step that is inside the attack
window (`attack_active` true) and whose sample is flagged anomalous has all
6 maneuver components of its recorded StepRecord in `[-2, 2]`. -/
theorem clamp_during_attack (E : Env) (det : Option (Features → ℚ))
    (pred : Option (Features → Vec3 → Move6)) (rm : ℕ → Move6)
    (instr : String) (numSteps as ae : ℕ) (g : Vec3) (r : AttackRecord)
    (hr : r ∈ (run_multi_step_simulation_attack E det pred rm instr numSteps
      as ae g).1)
    (hA : r.attackActive = true) (hN : r.isAnomaly = true) :
    r.move.allIn (-2) 2 :=
  runAttackFrom_clamp E det pred rm g as ae numSteps 0 100 ⟨50000, 0, 0⟩ r hr hA hN

/-- Witness for C1: a concrete one-step attacked run whose single step is
attack-active and flagged anomalous; its recorded maneuver is clamped. -/
theorem clamp_during_attack_witness :
    (((run_multi_step_simulation_attack zeroEnv (some fun _ => -1)
      (some fun _ _ => ⟨3, 0, 0, 0, 0, 0⟩) (fun _ => ⟨0, 0, 0, 0, 0, 0⟩)
      "mars" 1 0 1 ⟨1, 0, 8/10⟩).1).headI).move.allIn (-2) 2 := by
  have hlen : (run_multi_step_simulation_attack zeroEnv (some fun _ => -1)
      (some fun _ _ => ⟨3, 0, 0, 0, 0, 0⟩) (fun _ => ⟨0, 0, 0, 0, 0, 0⟩)
      "mars" 1 0 1 ⟨1, 0, 8/10⟩).1.length = 1 :=
    run_attack_length _ _ _ _ _ 1 0 1 _
  refine clamp_during_attack zeroEnv (some fun _ => -1)
    (some fun _ _ => ⟨3, 0, 0, 0, 0, 0⟩) (fun _ => ⟨0, 0, 0, 0, 0, 0⟩)
    "mars" 1 0 1 ⟨1, 0, 8/10⟩ _
    (headI_mem (List.ne_nil_of_length_pos (by rw [hlen]; norm_num))) ?_ ?_
  · rfl
  · show decide ((-1 : ℚ) < -(1/2)) = true
    norm_num

/-- C10: the attacked run's anomaly decision is `anomaly_score < -0.5` with
the threshold fixed at `0.5` (its loop exposes no sensitivity parameter),
while the baseline run compares the score against the caller-supplied
`anomaly_sensitivity`. -/
theorem attack_anomaly_threshold_fixed (E Eb : Env) (d : Features → ℚ)
    (pred : Option (Features → Vec3 → Move6)) (rm : ℕ → Move6)
    (instr instrB : String) (numSteps numStepsB as ae : ℕ) (g : Vec3)
    (slm : SLMInterpreter) (detB : Features → ℚ)
    (predB : Features → Vec3 → Move6) (rate sens : ℚ) :
    (∀ r ∈ (run_multi_step_simulation_attack E (some d) pred rm instr
        numSteps as ae g).1,
      r.isAnomaly = decide (d r.state < -(1/2))) ∧
    (∀ r ∈ (run_multi_step_simulation slm Eb detB predB instrB numStepsB
        rate sens).1,
      r.isAnomaly = decide (detB r.state < -sens)) :=
  ⟨runAttackFrom_anomaly E d pred rm g as ae numSteps 0 100 ⟨50000, 0, 0⟩,
   runBaseFrom_anomaly Eb detB predB
     (interpret_instruction slm instrB) rate sens numStepsB 0 100 ⟨50000, 0, 0⟩⟩

/-- Witness for C10: with a detector scoring `-1`, the single attacked step
is flagged (since `-1 < -0.5`) while a baseline run with sensitivity `2` is
not (since `¬(-1 < -2)`), at the same score. -/
theorem attack_anomaly_threshold_fixed_witness :
    (((run_multi_step_simulation_attack zeroEnv (some fun _ => -1)
        (some fun _ _ => ⟨0, 0, 0, 0, 0, 0⟩) (fun _ => ⟨0, 0, 0, 0, 0, 0⟩)
        "mars" 1 5 9 ⟨1, 0, 8/10⟩).1).headI).isAnomaly = true ∧
    (((run_multi_step_simulation slmRB zeroEnv (fun _ => -1)
        (fun _ _ => ⟨0, 0, 0, 0, 0, 0⟩) "mars" 1 0 2).1).headI).isAnomaly
      = false := by
  have h1 := (attack_anomaly_threshold_fixed zeroEnv zeroEnv (fun _ => -1)
    (some fun _ _ => ⟨0, 0, 0, 0, 0, 0⟩) (fun _ => ⟨0, 0, 0, 0, 0, 0⟩)
    "mars" "mars" 1 1 5 9 ⟨1, 0, 8/10⟩ slmRB (fun _ => -1)
    (fun _ _ => ⟨0, 0, 0, 0, 0, 0⟩) 0 2).1 _
    (headI_mem (List.ne_nil_of_length_pos (by
      rw [run_attack_length]
      norm_num)))
  have h2 := (attack_anomaly_threshold_fixed zeroEnv zeroEnv (fun _ => -1)
    (some fun _ _ => ⟨0, 0, 0, 0, 0, 0⟩) (fun _ => ⟨0, 0, 0, 0, 0, 0⟩)
    "mars" "mars" 1 1 5 9 ⟨1, 0, 8/10⟩ slmRB (fun _ => -1)
    (fun _ _ => ⟨0, 0, 0, 0, 0, 0⟩) 0 2).2 _
    (headI_mem (List.ne_nil_of_length_pos (by
      rw [run_base_length]
      norm_num)))
  rw [h1, h2]
  norm_num

/-- C8: with `total_steps = 50`, `attack_start = 15`, `attack_end = 25`,
the attack scenario's attacked ledger has 50 steps whose `attack_active`
flag is true exactly for steps 15..24 (and each record's step index is its
position), while the baseline ledger is the run with `anomaly_rate = 0`
(hence, when the corruption coin is a probability in `[0,1)`, no baseline
sample is ever corrupted: each recorded state is the clean generated one). -/
theorem attack_scenario_window_flags (slm : SLMInterpreter) (E Eatt : Env)
    (det : Features → ℚ) (pred : Features → Vec3 → Move6) (rm : ℕ → Move6)
    (instr attackInstr : String) (hu : ∀ i, 0 ≤ E.urand i) :
    ((run_attack_scenario slm E Eatt det pred rm instr 50 15 25
        attackInstr).2.2.1.length = 50) ∧
    (∀ (i : ℕ) (h : i < (run_attack_scenario slm E Eatt det pred rm instr
        50 15 25 attackInstr).2.2.1.length),
      (((run_attack_scenario slm E Eatt det pred rm instr 50 15 25
          attackInstr).2.2.1).get ⟨i, h⟩).step = i ∧
      ((((run_attack_scenario slm E Eatt det pred rm instr 50 15 25
          attackInstr).2.2.1).get ⟨i, h⟩).attackActive = true ↔
        (15 ≤ i ∧ i < 25))) ∧
    ((run_attack_scenario slm E Eatt det pred rm instr 50 15 25
        attackInstr).2.1 =
      (run_multi_step_simulation slm E det pred instr 50 0 (1/2)).1) ∧
    (∀ r ∈ (run_attack_scenario slm E Eatt det pred rm instr 50 15 25
        attackInstr).2.1,
      r.state = (genOne E.draws (E.clock r.step)).feat) := by
  refine ⟨?_, ?_, rfl, ?_⟩
  · exact runAttackFrom_length Eatt (some det) (some pred) rm _ 15 25 50 0 100
      ⟨50000, 0, 0⟩
  · intro i h
    have hg := runAttackFrom_get Eatt (some det) (some pred) rm
      (run_multi_step_simulation slm E det pred instr 50 0 (1/2)).2 15 25
      50 0 100 ⟨50000, 0, 0⟩ i h
    refine ⟨by simpa using hg.1, ?_⟩
    rw [show ((run_attack_scenario slm E Eatt det pred rm instr 50 15 25
      attackInstr).2.2.1.get ⟨i, h⟩).attackActive =
        decide (15 ≤ 0 + i ∧ 0 + i < 25) from hg.2]
    simp
  · exact runBaseFrom_state_rate_zero E det pred _ (1/2) hu 50 0 100
      ⟨50000, 0, 0⟩

/-- Witness for C8: the scenario instantiated with concrete collaborators;
step 14 is outside the window, steps 15 and 24 inside, step 25 outside, and
the ledger has 50 records. -/
theorem attack_scenario_window_flags_witness :
    ((run_attack_scenario slmRB zeroEnv zeroEnv (fun _ => 0)
        (fun _ _ => ⟨0, 0, 0, 0, 0, 0⟩) (fun _ => ⟨0, 0, 0, 0, 0, 0⟩)
        "mars" 50 15 25 "poison").2.2.1.length = 50) ∧
    ¬(((run_attack_scenario slmRB zeroEnv zeroEnv (fun _ => 0)
        (fun _ _ => ⟨0, 0, 0, 0, 0, 0⟩) (fun _ => ⟨0, 0, 0, 0, 0, 0⟩)
        "mars" 50 15 25 "poison").2.2.1.get
          ⟨14, by
            rw [(attack_scenario_window_flags slmRB zeroEnv zeroEnv
              (fun _ => 0) (fun _ _ => ⟨0, 0, 0, 0, 0, 0⟩)
              (fun _ => ⟨0, 0, 0, 0, 0, 0⟩) "mars" "poison"
              (fun _ => le_rfl)).1]
            norm_num⟩).attackActive = true) ∧
    (((run_attack_scenario slmRB zeroEnv zeroEnv (fun _ => 0)
        (fun _ _ => ⟨0, 0, 0, 0, 0, 0⟩) (fun _ => ⟨0, 0, 0, 0, 0, 0⟩)
        "mars" 50 15 25 "poison").2.2.1.get
          ⟨15, by
            rw [(attack_scenario_window_flags slmRB zeroEnv zeroEnv
              (fun _ => 0) (fun _ _ => ⟨0, 0, 0, 0, 0, 0⟩)
              (fun _ => ⟨0, 0, 0, 0, 0, 0⟩) "mars" "poison"
              (fun _ => le_rfl)).1]
            norm_num⟩).attackActive = true) := by
  have h := attack_scenario_window_flags slmRB zeroEnv zeroEnv (fun _ => 0)
    (fun _ _ => ⟨0, 0, 0, 0, 0, 0⟩) (fun _ => ⟨0, 0, 0, 0, 0, 0⟩)
    "mars" "poison" (fun _ => le_rfl)
  refine ⟨h.1, ?_, ?_⟩
  · intro hc
    have := ((h.2.1 14 _).2).mp hc
    omega
  · exact ((h.2.1 15 _).2).mpr (by omega)

/-- Environment whose square-root oracle agrees with the real square root
on the arguments reached by the one-step counterexample run (`√1 = 1`). -/
def envSq : Env :=
  { zeroEnv with sqrtQ := fun q => if q = 1 then 1 else 0 }

/-- Counterexample for C2: in a one-step baseline run whose predictor
returns unit thrust `(1,0,0)`, the recorded fuel sequence is `[99.9]` —
the recorded fuel level does not start at `100.0` (fuel is recorded after
the step's consumption). -/
theorem recorded_fuel_first_step_ne_100 :
    ((run_multi_step_simulation slmRB envSq (fun _ => 0)
      (fun _ _ => ⟨1, 0, 0, 0, 0, 0⟩) "mars" 1 0 (1/2)).1.map
        (·.fuelAfter)) = [999/10] ∧ (999/10 : ℚ) ≠ 100 := by
  constructor
  · norm_num [run_multi_step_simulation, runBaseFrom, baseStep, envSq, zeroEnv]
  · norm_num

/-- C2 (amended): in any simulation run, baseline or attacked, fuel is
initialised to `100.0` and every recorded fuel level lies in `[0, 100]`;
the recorded sequence is monotonically non-increasing (`i ≤ j →
fuel[j] ≤ fuel[i]`).  (As recorded, the first entry is the level after the
first step's consumption, so it need not equal `100.0`.) -/
theorem fuel_bounds_monotone (slm : SLMInterpreter) (E Ea : Env)
    (det : Features → ℚ) (pred : Features → Vec3 → Move6)
    (detA : Option (Features → ℚ)) (predA : Option (Features → Vec3 → Move6))
    (rm : ℕ → Move6) (instr instrA : String) (n nA as ae : ℕ) (g : Vec3)
    (rate sens : ℚ) (hs : ∀ q, 0 ≤ E.sqrtQ q) (hsA : ∀ q, 0 ≤ Ea.sqrtQ q) :
    (∀ r ∈ (run_multi_step_simulation slm E det pred instr n rate sens).1,
      0 ≤ r.fuelAfter ∧ r.fuelAfter ≤ 100) ∧
    (∀ (i j : ℕ)
      (hi : i < (run_multi_step_simulation slm E det pred instr n rate sens).1.length)
      (hj : j < (run_multi_step_simulation slm E det pred instr n rate sens).1.length),
      i ≤ j →
      ((run_multi_step_simulation slm E det pred instr n rate sens).1.get
          ⟨j, hj⟩).fuelAfter ≤
        ((run_multi_step_simulation slm E det pred instr n rate sens).1.get
          ⟨i, hi⟩).fuelAfter) ∧
    (∀ r ∈ (run_multi_step_simulation_attack Ea detA predA rm instrA nA as ae g).1,
      0 ≤ r.fuelAfter ∧ r.fuelAfter ≤ 100) ∧
    (∀ (i j : ℕ)
      (hi : i < (run_multi_step_simulation_attack Ea detA predA rm instrA nA as ae g).1.length)
      (hj : j < (run_multi_step_simulation_attack Ea detA predA rm instrA nA as ae g).1.length),
      i ≤ j →
      ((run_multi_step_simulation_attack Ea detA predA rm instrA nA as ae g).1.get
          ⟨j, hj⟩).fuelAfter ≤
        ((run_multi_step_simulation_attack Ea detA predA rm instrA nA as ae g).1.get
          ⟨i, hi⟩).fuelAfter) := by
  obtain ⟨hmemB, hpwB⟩ := runBaseFrom_fuel E det pred
    (interpret_instruction slm instr) rate sens hs n 0 100 ⟨50000, 0, 0⟩
    (by norm_num)
  obtain ⟨hmemA, hpwA⟩ := runAttackFrom_fuel Ea detA predA rm g as ae hsA
    nA 0 100 ⟨50000, 0, 0⟩ (by norm_num)
  refine ⟨hmemB, ?_, hmemA, ?_⟩
  · intro i j hi hj hij
    rcases Nat.lt_or_ge i j with hlt | hge
    · exact (List.pairwise_iff_get.mp hpwB) ⟨i, hi⟩ ⟨j, hj⟩ hlt
    · have : i = j := Nat.le_antisymm hij hge
      subst this
      exact le_rfl
  · intro i j hi hj hij
    rcases Nat.lt_or_ge i j with hlt | hge
    · exact (List.pairwise_iff_get.mp hpwA) ⟨i, hi⟩ ⟨j, hj⟩ hlt
    · have : i = j := Nat.le_antisymm hij hge
      subst this
      exact le_rfl

/-- Witness for C2's amended theorem: concrete two-step baseline and
attacked runs; the first recorded levels are within `[0, 100]` and the
second recorded level is at most the first. -/
theorem fuel_bounds_monotone_witness :
    (0 ≤ ((run_multi_step_simulation slmRB zeroEnv (fun _ => 0)
        (fun _ _ => ⟨0, 0, 0, 0, 0, 0⟩) "mars" 2 0 (1/2)).1.headI).fuelAfter ∧
      ((run_multi_step_simulation slmRB zeroEnv (fun _ => 0)
        (fun _ _ => ⟨0, 0, 0, 0, 0, 0⟩) "mars" 2 0 (1/2)).1.headI).fuelAfter
        ≤ 100) ∧
    (0 ≤ ((run_multi_step_simulation_attack zeroEnv (some fun _ => 0)
        (some fun _ _ => ⟨0, 0, 0, 0, 0, 0⟩) (fun _ => ⟨0, 0, 0, 0, 0, 0⟩)
        "mars" 2 0 1 ⟨1, 0, 8/10⟩).1.headI).fuelAfter ∧
      ((run_multi_step_simulation_attack zeroEnv (some fun _ => 0)
        (some fun _ _ => ⟨0, 0, 0, 0, 0, 0⟩) (fun _ => ⟨0, 0, 0, 0, 0, 0⟩)
        "mars" 2 0 1 ⟨1, 0, 8/10⟩).1.headI).fuelAfter ≤ 100) := by
  have h := fuel_bounds_monotone slmRB zeroEnv zeroEnv (fun _ => 0)
    (fun _ _ => ⟨0, 0, 0, 0, 0, 0⟩) (some fun _ => 0)
    (some fun _ _ => ⟨0, 0, 0, 0, 0, 0⟩) (fun _ => ⟨0, 0, 0, 0, 0, 0⟩)
    "mars" "mars" 2 2 0 1 ⟨1, 0, 8/10⟩ 0 (1/2)
    (fun _ => le_rfl) (fun _ => le_rfl)
  refine ⟨h.1 _ (headI_mem (List.ne_nil_of_length_pos ?_)),
    h.2.2.1 _ (headI_mem (List.ne_nil_of_length_pos ?_))⟩
  · rw [run_base_length]; norm_num
  · rw [run_attack_length]; norm_num

theorem runBaseFrom_get_step (E : Env) (det : Features → ℚ)
    (pred : Features → Vec3 → Move6) (g : Vec3) (rate sens : ℚ) :
    ∀ (k i : ℕ) (f : ℚ) (p : Vec3) (j : ℕ)
      (hj : j < (runBaseFrom E det pred g rate sens k i f p).length),
      ((runBaseFrom E det pred g rate sens k i f p).get ⟨j, hj⟩).step = i + j := by
  intro k
  induction k with
  | zero => intro i f p j hj; simp [runBaseFrom] at hj
  | succ k ih =>
    intro i f p j hj
    match j with
    | 0 => rfl
    | j + 1 =>
      simp only [runBaseFrom] at hj ⊢
      have h := ih (i + 1) (baseStep E det pred g rate sens i f p).2.1
        (baseStep E det pred g rate sens i f p).2.2 j (by simpa using hj)
      have e : i + 1 + j = i + (j + 1) := by omega
      rw [e] at h
      rw [List.get_cons_succ]
      exact h

/-- C9: the end-to-end scenario.  With the rule-based interpreter (the
transformers pipeline not loaded), instruction "Approach Mars from north
trajectory with minimal fuel use", 50 steps and `anomaly_rate = 0`, the
guidance vector has direction component `1.0` and fuel-priority component
`0.8`, and the ledger has exactly 50 records with step indices `0..49` in
order and every recorded fuel level — the final one included — in
`[0, 100]`. -/
theorem end_to_end_mars_scenario (E : Env) (det : Features → ℚ)
    (pred : Features → Vec3 → Move6) (slm : SLMInterpreter) (sens : ℚ)
    (hslm : slm.useTransformers = false) (hs : ∀ q, 0 ≤ E.sqrtQ q) :
    ((run_multi_step_simulation slm E det pred
        "Approach Mars from north trajectory with minimal fuel use" 50 0
        sens).2 = ⟨1, 0, 8/10⟩) ∧
    ((run_multi_step_simulation slm E det pred
        "Approach Mars from north trajectory with minimal fuel use" 50 0
        sens).1.length = 50) ∧
    (∀ (i : ℕ) (h : i < (run_multi_step_simulation slm E det pred
        "Approach Mars from north trajectory with minimal fuel use" 50 0
        sens).1.length),
      (((run_multi_step_simulation slm E det pred
        "Approach Mars from north trajectory with minimal fuel use" 50 0
        sens).1).get ⟨i, h⟩).step = i) ∧
    (∀ r ∈ (run_multi_step_simulation slm E det pred
        "Approach Mars from north trajectory with minimal fuel use" 50 0
        sens).1,
      0 ≤ r.fuelAfter ∧ r.fuelAfter ≤ 100) := by
  refine ⟨?_, run_base_length _ _ _ _ _ _ _ _, ?_, ?_⟩
  · show interpret_instruction slm _ = _
    rcases slm with ⟨ut, tm⟩
    simp only at hslm
    subst hslm
    rfl
  · intro i h
    have hg := runBaseFrom_get_step E det pred _ 0 sens 50 0 100
      ⟨50000, 0, 0⟩ i h
    simpa using hg
  · exact (runBaseFrom_fuel E det pred _ 0 sens hs 50 0 100 ⟨50000, 0, 0⟩
      (by norm_num)).1

/-- Witness for C9: concrete collaborators; guidance is `(1, 0, 0.8)` and
the ledger has 50 records. -/
theorem end_to_end_mars_scenario_witness :
    ((run_multi_step_simulation slmRB zeroEnv (fun _ => 0)
        (fun _ _ => ⟨0, 0, 0, 0, 0, 0⟩)
        "Approach Mars from north trajectory with minimal fuel use" 50 0
        (1/2)).2 = ⟨1, 0, 8/10⟩) ∧
    ((run_multi_step_simulation slmRB zeroEnv (fun _ => 0)
        (fun _ _ => ⟨0, 0, 0, 0, 0, 0⟩)
        "Approach Mars from north trajectory with minimal fuel use" 50 0
        (1/2)).1.length = 50) := by
  have h := end_to_end_mars_scenario zeroEnv (fun _ => 0)
    (fun _ _ => ⟨0, 0, 0, 0, 0, 0⟩) slmRB (1/2) rfl (fun _ => le_rfl)
  exact ⟨h.1, h.2.1⟩

theorem zip_self_map_sum_zero (l : List ℚ) (g : ℚ × ℚ → ℚ)
    (h : ∀ a ∈ l, g (a, a) = 0) : ((l.zip l).map g).sum = 0 := by
  induction l with
  | nil => rfl
  | cons a t ih =>
    simp only [List.zip_cons_cons, List.map_cons, List.sum_cons]
    rw [h a (List.mem_cons_self a t), ih fun b hb => h b (List.mem_cons_of_mem a hb)]
    norm_num

theorem zip_self_map_half (l : List ℚ) :
    ((l.zip l).map fun p => (p.1 + p.2) / 2) = l := by
  induction l with
  | nil => rfl
  | cons a t ih =>
    simp only [List.zip_cons_cons, List.map_cons, ih]
    congr 1
    ring

theorem foldl_max_mono (t : List ℚ) :
    ∀ x y : ℚ, x ≤ y → t.foldl max x ≤ t.foldl max y := by
  induction t with
  | nil => intro x y h; exact h
  | cons a t ih =>
    intro x y h
    exact ih (max x a) (max y a) (max_le_max h le_rfl)

theorem foldl_min_le_foldl_max (t : List ℚ) :
    ∀ h : ℚ, t.foldl min h ≤ t.foldl max h := by
  induction t with
  | nil => intro h; exact le_rfl
  | cons a t ih =>
    intro h
    exact le_trans (ih (min h a))
      (foldl_max_mono t _ _ (le_trans (min_le_left h a) (le_max_left h a)))

theorem histRange_le (X : List ℚ) : (histRange X).1 ≤ (histRange X).2 := by
  cases X with
  | nil => norm_num [histRange]
  | cons h t =>
    simp only [histRange]
    split
    · rename_i heq
      simp only
      rw [heq]
      linarith
    · exact foldl_min_le_foldl_max t h

theorem npHistDensity_nonneg (data : List ℚ) (lo hi : ℚ) (bins : ℕ)
    (hlh : lo ≤ hi) : ∀ a ∈ npHistDensity data lo hi bins, 0 ≤ a := by
  intro a ha
  unfold npHistDensity at ha
  simp only [List.mem_map] at ha
  obtain ⟨c, _, rfl⟩ := ha
  have h1 : (0:ℚ) ≤ (c : ℚ) := Nat.cast_nonneg c
  have h2 : (0:ℚ) ≤ ((histCounts data lo hi bins).sum : ℚ) := Nat.cast_nonneg _
  have h3 : (0:ℚ) ≤ (hi - lo) / (bins : ℚ) :=
    div_nonneg (by linarith) (Nat.cast_nonneg bins)
  exact div_nonneg h1 (mul_nonneg h2 h3)

theorem calculate_psi_self (log : ℚ → ℚ) (X : List ℚ) :
    calculate_psi log X X = 0 := by
  unfold calculate_psi
  exact zip_self_map_sum_zero _ _ fun a _ => by rw [sub_self, zero_mul]

theorem ksStat_self (X : List ℚ) : ksStat X X = 0 := by
  unfold ksStat
  have h : ((X ++ X).map fun x => |ecdfLe X x - ecdfLe X x|) =
      (X ++ X).map fun _ => (0 : ℚ) :=
    List.map_congr_left fun a _ => by rw [sub_self, abs_zero]
  rw [h]
  induction (X ++ X) with
  | nil => rfl
  | cons a t ih => simp only [List.map_cons, List.foldr_cons, ih, max_self]

theorem calculate_js_self (log : ℚ → ℚ) (X : List ℚ) (hlog : log 1 = 0) :
    calculate_js_divergence log X X = 0 := by
  unfold calculate_js_divergence
  simp only [zip_self_map_half]
  have hnn : ∀ a ∈ (npHistDensity X (histRange X).1 (histRange X).2 10).map
      (· / (npHistDensity X (histRange X).1 (histRange X).2 10).sum), 0 ≤ a := by
    intro a ha
    simp only [List.mem_map] at ha
    obtain ⟨c, hc, rfl⟩ := ha
    apply div_nonneg (npHistDensity_nonneg X _ _ 10 (histRange_le X) c hc)
    exact List.sum_nonneg (npHistDensity_nonneg X _ _ 10 (histRange_le X))
  have hz : ∀ a ∈ (npHistDensity X (histRange X).1 (histRange X).2 10).map
      (· / (npHistDensity X (histRange X).1 (histRange X).2 10).sum),
      a * log ((a + 1/10000000000) / (a + 1/10000000000)) = 0 := by
    intro a ha
    have h1 : a + 1/10000000000 > 0 := by
      have := hnn a ha
      linarith
    rw [div_self (ne_of_gt h1), hlog, mul_zero]
  rw [zip_self_map_sum_zero _ _ fun a ha => hz a ha]
  norm_num

/-- C6: for every nonempty data array `X`, every method in
`{psi, ks, js}` and every nonnegative threshold `t`,
`detect_drift(X, X, method, t)` reports `drift_detected = False`
(`log 1 = 0` pins down the natural logarithm; `ksPV 0 n n = 1` is scipy's
p-value `P(D ≥ 0) = 1` for a zero KS statistic). -/
theorem detect_drift_identical_no_drift (log : ℚ → ℚ)
    (ksPV : ℚ → ℕ → ℕ → ℚ) (X : List ℚ) (t : ℚ) (m : String) (hX : X ≠ [])
    (ht : 0 ≤ t) (hlog : log 1 = 0) (hks : ksPV 0 X.length X.length = 1)
    (hm : m = "psi" ∨ m = "ks" ∨ m = "js") :
    (detect_drift log ksPV X X m t).driftDetected = false := by
  have hlen : ¬(X.length = 0 ∨ X.length = 0) := by
    simp [List.length_eq_zero, hX]
  rcases hm with rfl | rfl | rfl
  · unfold detect_drift
    rw [if_neg hlen, if_pos rfl]
    simp only
    rw [calculate_psi_self log X]
    exact decide_eq_false (not_lt.mpr ht)
  · unfold detect_drift
    rw [if_neg hlen, if_neg (by decide), if_pos rfl]
    simp only
    rw [ksStat_self, hks]
    norm_num
  · unfold detect_drift
    rw [if_neg hlen, if_neg (by decide), if_neg (by decide), if_pos rfl]
    simp only
    rw [calculate_js_self log X hlog]
    exact decide_eq_false (not_lt.mpr ht)

/-- Witness for C6: the concrete array `[0, 1]` with the default PSI
threshold `0.1`, for each of the three methods. -/
theorem detect_drift_identical_no_drift_witness :
    (detect_drift (fun _ => 0) (fun _ _ _ => 1) [0, 1] [0, 1] "psi"
      (1/10)).driftDetected = false ∧
    (detect_drift (fun _ => 0) (fun _ _ _ => 1) [0, 1] [0, 1] "ks"
      (1/10)).driftDetected = false ∧
    (detect_drift (fun _ => 0) (fun _ _ _ => 1) [0, 1] [0, 1] "js"
      (1/10)).driftDetected = false :=
  ⟨detect_drift_identical_no_drift (fun _ => 0) (fun _ _ _ => 1) [0, 1]
    (1/10) "psi" (List.cons_ne_nil 0 [1]) (by norm_num) rfl rfl (Or.inl rfl),
   detect_drift_identical_no_drift (fun _ => 0) (fun _ _ _ => 1) [0, 1]
    (1/10) "ks" (List.cons_ne_nil 0 [1]) (by norm_num) rfl rfl (Or.inr (Or.inl rfl)),
   detect_drift_identical_no_drift (fun _ => 0) (fun _ _ _ => 1) [0, 1]
    (1/10) "js" (List.cons_ne_nil 0 [1]) (by norm_num) rfl rfl (Or.inr (Or.inr rfl))⟩

/-- C7 (behaviour of the code at the failing input): with a NaN in the
position vector, `calculate_time_to_destination` returns NaN — not the
`None` sentinel the specification promises.  Every comparison against NaN
is false, so control reaches the closing-speed branch and NaN propagates
to the returned value; no exception is raised, so the `except → None` path
never triggers.  The statement holds for every square-root valuation `s`. -/
theorem time_estimator_nan_input_returns_nan (s : ℚ → ℚ) :
    calcTimeF s F.nan (F.num 0) (F.num 0) (F.num 0) (F.num 0) (F.num 0)
      (F.num 50) (F.num 2) = F.nan := rfl

/-- C3 (behaviour of the code at the failing input): running the attack
scenario with an empty attack window (`attack_start = attack_end = 5`,
6 steps) makes `generate_attack_summary` fail with a `ZeroDivisionError`:
the detection-rate replacement field divides by the window length
unconditionally (its guarding ternary sits outside the f-string braces),
so the "no attack data" classification is never reached. -/
theorem attack_summary_empty_window_zero_division :
    (run_attack_scenario slmRB zeroEnv zeroEnv (fun _ => 0)
      (fun _ _ => ⟨0, 0, 0, 0, 0, 0⟩) (fun _ => ⟨0, 0, 0, 0, 0, 0⟩)
      "mars" 6 5 5 "poison").1 =
      Except.error "ZeroDivisionError: division by zero" := by
  rfl

/-- C4 (amended): `inject_fake_data` returns a new list of the same length
in which exactly the rows at the `⌊n·rate⌋` indices drawn by
`np.random.choice` are overwritten with corrupted field values, and every
row outside the drawn index set is identical to the input (the input list
itself is unchanged — the source mutates only a copy). -/
theorem inject_fake_data_selection (choice : ℕ → ℕ → List ℕ)
    (sgn velm fu hz : ℕ → ℚ) (df : List Sample) (rate : ℚ)
    (hlen : (choice df.length (numCorrupt df.length rate)).length =
      numCorrupt df.length rate) :
    ((inject_fake_data choice sgn velm fu hz df rate).length = df.length) ∧
    ((choice df.length (numCorrupt df.length rate)).length =
      numCorrupt df.length rate) ∧
    (∀ (i : ℕ)
      (h1 : i < (inject_fake_data choice sgn velm fu hz df rate).length)
      (h2 : i < df.length),
      (i ∉ choice df.length (numCorrupt df.length rate) →
        (inject_fake_data choice sgn velm fu hz df rate).get ⟨i, h1⟩ =
          df.get ⟨i, h2⟩) ∧
      (i ∈ choice df.length (numCorrupt df.length rate) →
        (inject_fake_data choice sgn velm fu hz df rate).get ⟨i, h1⟩ =
          corruptRow sgn velm fu hz
            ((choice df.length (numCorrupt df.length rate)).indexOf i)
            (df.get ⟨i, h2⟩))) := by
  refine ⟨by simp [inject_fake_data], hlen, ?_⟩
  intro i h1 h2
  constructor
  · intro hni
    simp [inject_fake_data, List.get_eq_getElem, List.getElem_mapIdx, hni]
  · intro hyi
    simp [inject_fake_data, List.get_eq_getElem, List.getElem_mapIdx, hyi]

/-- Two-row concrete DataFrame for the C4 witness. -/
def dfW : List Sample :=
  [⟨1, ⟨3, 0, 0, 2, 0, 0, 0, 50, 0, 5⟩, 0, 0⟩,
   ⟨2, ⟨4, 0, 0, 1, 0, 0, 0, 60, 0, 6⟩, 0, 0⟩]

/-- Witness for C4's amended theorem: on a 2-row frame with rate `0.5`,
one row (index 0) is drawn; the other row is returned identical and the
drawn row is the corrupted copy of its input. -/
theorem inject_fake_data_selection_witness :
    ((inject_fake_data (fun _ k => List.range k) (fun _ => 10) (fun _ => 5)
      (fun _ => 7) (fun _ => 9) dfW (1/2)).length = dfW.length) ∧
    ((inject_fake_data (fun _ k => List.range k) (fun _ => 10) (fun _ => 5)
      (fun _ => 7) (fun _ => 9) dfW (1/2)).get
        ⟨1, by simp [inject_fake_data, dfW]⟩ =
      dfW.get ⟨1, by simp [dfW]⟩) := by
  have hnum : numCorrupt dfW.length (1/2) = 1 := by
    norm_num [numCorrupt, dfW]
  have h := inject_fake_data_selection (fun _ k => List.range k)
    (fun _ => 10) (fun _ => 5) (fun _ => 7) (fun _ => 9) dfW (1/2)
    (by simp)
  refine ⟨h.1, ?_⟩
  exact (h.2.2 1 _ _).1 (by rw [hnum]; simp)

/-- One-row DataFrame whose selected row the corruption draws can leave
pointwise unchanged: `position_x = 0` and `velocity_x = 0` absorb the
multiplicative corruption, and the replacement draws for `fuel_level` and
`hazard_score` happen to equal the stored values. -/
def dfZero : List Sample := [⟨0, ⟨0, 0, 0, 0, 0, 0, 0, 5, 0, 9⟩, 0, 0⟩]

/-- Counterexample for C4: with `rate = 1` on a 1-row frame, the corruption
requests `⌊1·1⌋ = 1` modified row, yet the returned frame is identical to
the input (0 rows modified): the claim "exactly ⌊n·r⌋ rows are modified"
fails, because a selected row can be overwritten with values equal to the
old ones. -/
theorem modifiedCount_self (l : List Sample) : modifiedCount l l = 0 := by
  induction l with
  | nil => rfl
  | cons a t ih =>
    simp only [modifiedCount, List.zip_cons_cons, List.countP_cons] at ih ⊢
    simpa using ih

theorem inject_fake_data_unmodified_row :
    (inject_fake_data (fun _ k => List.range k) (fun _ => 10) (fun _ => 5)
      (fun _ => 5) (fun _ => 9) dfZero 1 = dfZero) ∧
    modifiedCount dfZero (inject_fake_data (fun _ k => List.range k)
      (fun _ => 10) (fun _ => 5) (fun _ => 5) (fun _ => 9) dfZero 1) = 0 ∧
    numCorrupt dfZero.length 1 = 1 := by
  have he : inject_fake_data (fun _ k => List.range k) (fun _ => 10)
      (fun _ => 5) (fun _ => 5) (fun _ => 9) dfZero 1 = dfZero := by
    norm_num [inject_fake_data, dfZero, corruptRow, numCorrupt,
      List.mapIdx_cons, List.mapIdx_nil, List.range_succ]
  refine ⟨he, ?_, by norm_num [numCorrupt, dfZero]⟩
  rw [he]
  exact modifiedCount_self dfZero

/-- Counterexample for C5: two generator calls with the same row count both
use the hard-coded seed 42 (the function exposes no seed parameter), yet
their outputs differ — the timestamp column is read from the wall clock
(`datetime.now()`), here `0` versus `1` — so "given the same seed the
output is bit-reproducible" is false for the full output, and "without a
seed the output is non-deterministic" mischaracterises the numeric columns
(equal in both calls, see the amended theorem). -/
theorem generator_output_differs_same_seed :
    (generate_correct_data (fun _ _ => 0) 0 ⟨7, 3⟩ 1).1 ≠
      (generate_correct_data (fun _ _ => 0) 1 ⟨42, 99⟩ 1).1 := by
  intro h
  have := congrArg (fun l => l.headI.ts) h
  norm_num [generate_correct_data, List.range_succ] at this

/-- C5 (amended): the generator takes no seed parameter and unconditionally
reseeds the global RNG with the constant 42, so for a given `n` the numeric
(non-timestamp) columns are identical across any two calls — whatever the
prior global RNG state and whatever the wall-clock times — and the global
RNG state it leaves behind is always `(seed 42, 12·n variates consumed)`. -/
theorem generator_numeric_deterministic (draws : ℕ → ℕ → ℚ) (t1 t2 : ℚ)
    (r1 r2 : RNGState) (n : ℕ) :
    ((generate_correct_data draws t1 r1 n).1.map Sample.numeric =
      (generate_correct_data draws t2 r2 n).1.map Sample.numeric) ∧
    ((generate_correct_data draws t1 r1 n).2 = ⟨42, 12 * n⟩) := by
  constructor
  · unfold generate_correct_data
    simp only [List.map_map]
    exact List.map_congr_left fun i _ => rfl
  · rfl

end GalactiMecha
